import Mathlib

/-
Verification of the shared-terminal broadcast hub of termlinkky-server
(src/server/server.py, class SharedTerminalSession), as a shallow embedding.

Clients are identified by natural numbers (opaque websocket handles).
Byte strings and character strings are lists of naturals.
External effects (PTY write success, websocket send success, tmux command
success) are supplied as explicit boolean oracles; the asyncio event loop
serializes the coroutines of this program at await points, and none of the
restart / start code contains an internal await, so concurrent callers are
faithfully modelled by sequential composition.
-/

/-! ### The Python UTF-8 codec with errors equal to replace

`_read_output` (server.py line 226) sends `data.decode("utf-8", errors="replace")`
over a websocket text frame, so the bytes a client receives are the UTF-8
re-encoding of the replace-decoding of the chunk.  We embed that codec:
each maximal ill-formed subsequence is replaced by one U+FFFD, per the
Unicode substitution practice that CPython implements. -/

/-- Is `b` a UTF-8 continuation byte (0x80..0xBF)? -/
def isCont (b : Nat) : Bool := decide (0x80 ≤ b ∧ b ≤ 0xBF)

/-- Accepted range of the first continuation byte after a three-byte lead,
excluding overlong forms (lead 0xE0) and surrogates (lead 0xED). -/
def contFirst3 (b0 b1 : Nat) : Bool :=
  if b0 = 0xE0 then decide (0xA0 ≤ b1 ∧ b1 ≤ 0xBF)
  else if b0 = 0xED then decide (0x80 ≤ b1 ∧ b1 ≤ 0x9F)
  else isCont b1

/-- Accepted range of the first continuation byte after a four-byte lead,
excluding overlong forms (lead 0xF0) and code points above U+10FFFF (lead 0xF4). -/
def contFirst4 (b0 b1 : Nat) : Bool :=
  if b0 = 0xF0 then decide (0x90 ≤ b1 ∧ b1 ≤ 0xBF)
  else if b0 = 0xF4 then decide (0x80 ≤ b1 ∧ b1 ≤ 0x8F)
  else isCont b1

/-- One step of the replace-decoder: given the lead byte `b0` and the remaining
bytes, return `(codepoint, how many extra bytes were consumed, well-formed?)`.
On an ill-formed sequence the codepoint is U+FFFD and the bytes of the maximal
ill-formed subpart (beyond the lead) are consumed. -/
def utf8Step (b0 : Nat) (rest : List Nat) : Nat × Nat × Bool :=
  if b0 ≤ 0x7F then (b0, 0, true)
  else if 0xC2 ≤ b0 ∧ b0 ≤ 0xDF then
    match rest with
    | b1 :: _ =>
      if isCont b1 then ((b0 - 0xC0) * 0x40 + (b1 - 0x80), 1, true)
      else (0xFFFD, 0, false)
    | [] => (0xFFFD, 0, false)
  else if 0xE0 ≤ b0 ∧ b0 ≤ 0xEF then
    match rest with
    | b1 :: b2 :: _ =>
      if contFirst3 b0 b1 then
        if isCont b2 then
          ((b0 - 0xE0) * 0x1000 + (b1 - 0x80) * 0x40 + (b2 - 0x80), 2, true)
        else (0xFFFD, 1, false)
      else (0xFFFD, 0, false)
    | [b1] => if contFirst3 b0 b1 then (0xFFFD, 1, false) else (0xFFFD, 0, false)
    | [] => (0xFFFD, 0, false)
  else if 0xF0 ≤ b0 ∧ b0 ≤ 0xF4 then
    match rest with
    | b1 :: b2 :: b3 :: _ =>
      if contFirst4 b0 b1 then
        if isCont b2 then
          if isCont b3 then
            ((b0 - 0xF0) * 0x40000 + (b1 - 0x80) * 0x1000 + (b2 - 0x80) * 0x40
              + (b3 - 0x80), 3, true)
          else (0xFFFD, 2, false)
        else (0xFFFD, 1, false)
      else (0xFFFD, 0, false)
    | [b1, b2] =>
      if contFirst4 b0 b1 then
        if isCont b2 then (0xFFFD, 2, false) else (0xFFFD, 1, false)
      else (0xFFFD, 0, false)
    | [b1] => if contFirst4 b0 b1 then (0xFFFD, 1, false) else (0xFFFD, 0, false)
    | [] => (0xFFFD, 0, false)
  else (0xFFFD, 0, false)

/-- Fuelled replace-decoder; the fuel is an upper bound on the number of
characters, which the byte length always is. -/
def utf8DecodeReplaceAux : Nat → List Nat → List Nat
  | 0, _ => []
  | _ + 1, [] => []
  | fuel + 1, b0 :: rest =>
    (utf8Step b0 rest).1 ::
      utf8DecodeReplaceAux fuel (rest.drop (utf8Step b0 rest).2.1)

/-- Decode a byte list to code points the way `bytes.decode("utf-8", errors="replace")` does. -/
def utf8DecodeReplace (l : List Nat) : List Nat := utf8DecodeReplaceAux l.length l

/-- Fuelled UTF-8 well-formedness check. -/
def utf8ValidAux : Nat → List Nat → Bool
  | 0, l => l.isEmpty
  | _ + 1, [] => true
  | fuel + 1, b0 :: rest =>
    (utf8Step b0 rest).2.2 && utf8ValidAux fuel (rest.drop (utf8Step b0 rest).2.1)

/-- Is `l` a well-formed UTF-8 byte sequence? -/
def utf8Valid (l : List Nat) : Bool := utf8ValidAux l.length l

/-- UTF-8 encoding of one code point. -/
def utf8EncodeChar (cp : Nat) : List Nat :=
  if cp ≤ 0x7F then [cp]
  else if cp ≤ 0x7FF then [0xC0 + cp / 0x40, 0x80 + cp % 0x40]
  else if cp ≤ 0xFFFF then
    [0xE0 + cp / 0x1000, 0x80 + (cp / 0x40) % 0x40, 0x80 + cp % 0x40]
  else
    [0xF0 + cp / 0x40000, 0x80 + (cp / 0x1000) % 0x40, 0x80 + (cp / 0x40) % 0x40,
     0x80 + cp % 0x40]

/-- UTF-8 encoding of a code point list. -/
def utf8Encode (cps : List Nat) : List Nat := (cps.map utf8EncodeChar).flatten

/-- The bytes a websocket client receives for a PTY chunk `data`: the text frame
payload of `send_str(data.decode("utf-8", errors="replace"))`. -/
def payloadOf (data : List Nat) : List Nat := utf8Encode (utf8DecodeReplace data)

/-! ### The shared session state

Mirrors the attributes of `SharedTerminalSession` (server.py lines 101-110)
plus ghost counters observing process spawns and restart attempts, and the
ghost list of currently live child processes. -/

/-- State of the `SharedTerminalSession` singleton.  `spawnCount`,
`restartCount` and `alive` are ghost observers: `spawnCount` counts executions
of the `os.fork` in `_start_tmux_session`, `restartCount` counts entries into
`_restart_tmux_connection`, and `alive` lists the pids of child processes that
have been spawned and not yet killed. -/
structure SessionState where
  clients : List Nat
  masterFd : Option Nat
  pid : Option Nat
  running : Bool
  spawnCount : Nat
  restartCount : Nat
  alive : List Nat
  sessionName : String
deriving DecidableEq

/-- The state before any client has connected (class-attribute defaults,
server.py lines 104-110). -/
def initialState : SessionState :=
  { clients := []
    masterFd := none
    pid := none
    running := false
    spawnCount := 0
    restartCount := 0
    alive := []
    sessionName := "termlinkky" }

/-- A representative state in which the session is up: the PTY is open, a
child is attached, and the read loop is running. -/
def runningState : SessionState :=
  { initialState with
      running := true
      masterFd := some 3
      pid := some 42
      spawnCount := 1
      alive := [42] }

/-- `_start_tmux_session` (server.py lines 145-197): on success it opens a fresh
PTY pair, forks a child that execs `tmux attach-session`, and sets `_running`;
on failure (a tmux subprocess error) it sets `_running = False` and re-raises.
`startOk` is the oracle for the external tmux/fork steps; `newFd` and `newPid`
are the fresh descriptor and child pid.  Returns the new state and whether the
call returned normally. -/
def startTmuxSession (startOk : Bool) (newFd newPid : Nat) (s : SessionState) :
    SessionState × Bool :=
  if startOk then
    ({ s with
        masterFd := some newFd
        pid := some newPid
        running := true
        spawnCount := s.spawnCount + 1
        alive := s.alive ++ [newPid] }, true)
  else ({ s with running := false }, false)

/-- `_restart_tmux_connection` (server.py lines 303-318): best-effort close of
the old master fd, best-effort `os.kill(pid, 9)` of the old child, then
`_start_tmux_session`.  There is no guard against concurrent or repeated
invocation. -/
def restartTmux (startOk : Bool) (newFd newPid : Nat) (s : SessionState) :
    SessionState × Bool :=
  let s1 := { s with restartCount := s.restartCount + 1 }
  let s2 :=
    match s1.pid with
    | some p => { s1 with alive := s1.alive.erase p }
    | none => s1
  startTmuxSession startOk newFd newPid s2

/-- Observable outcome of one `SharedTerminalSession.write` call:
how many direct PTY writes were attempted, whether the direct path succeeded,
the argument handed to the `tmux send-keys -l` fallback (if it was invoked),
and whether `_restart_tmux_connection` was invoked. -/
structure WriteOutcome where
  directAttempts : Nat
  usedDirect : Bool
  fallbackArg : Option (List Nat)
  restartAttempted : Bool
deriving DecidableEq

/-- Fallback tail of `write` (server.py lines 284-301): run
`tmux send-keys -t SESSION_NAME -l data` with the raw `data` (the locally
computed `escaped` string on line 287 is never used), swallowing any error,
then, if `_running` is false, await `_restart_tmux_connection`, swallowing
any error it raises. -/
def writeFallback (startOk : Bool) (newFd newPid : Nat) (data : List Nat)
    (attempts : Nat) (s : SessionState) : SessionState × WriteOutcome :=
  if s.running then
    (s, { directAttempts := attempts
          usedDirect := false
          fallbackArg := some data
          restartAttempted := false })
  else
    ((restartTmux startOk newFd newPid s).1,
     { directAttempts := attempts
       usedDirect := false
       fallbackArg := some data
       restartAttempted := true })

/-- `SharedTerminalSession.write` (server.py lines 273-301).  If the master fd
is present and the session is running, try one direct `os.write`; on success
return, on an OSError set `_running = False` and continue with the fallback.
Otherwise go straight to the fallback.  `ptyWriteOk` is the oracle for the
direct `os.write`. -/
def writeInput (ptyWriteOk startOk : Bool) (newFd newPid : Nat) (data : List Nat)
    (s : SessionState) : SessionState × WriteOutcome :=
  if s.masterFd.isSome && s.running then
    if ptyWriteOk then
      (s, { directAttempts := 1
            usedDirect := true
            fallbackArg := none
            restartAttempted := false })
    else writeFallback startOk newFd newPid data 1 { s with running := false }
  else writeFallback startOk newFd newPid data 0 s

/-! ### Join, leave, snapshot -/

/-- History cap used at join: `tmux capture-pane ... -S -1000` (server.py line 132). -/
def historyCap : Nat := 1000

/-- Boundary model of the external command
`tmux capture-pane -t SESSION_NAME -p -S -cap`: it prints the most recent
`cap` lines of the session's output history (all of it when shorter). -/
def tmuxCapturePane (cap : Nat) (history : List (List Nat)) : List (List Nat) :=
  history.drop (history.length - cap)

/-- Snapshot phase of `add_client` (server.py lines 129-138): run capture-pane
with a 2 second timeout; if it returned 0 and printed something, send the
output to the new client; every failure (capture error, timeout, send error)
is swallowed by the bare `except`.  Returns what was delivered to the client,
`none` when nothing was. -/
def joinSnapshot (captureOk sendOk : Bool) (history : List (List Nat)) :
    Option (List (List Nat)) :=
  let snap := tmuxCapturePane historyCap history
  if captureOk && !snap.isEmpty && sendOk then some snap else none

/-- Observable outcome of one `add_client` call: whether `_start_tmux_session`
was invoked, whether the call raised, and the snapshot delivered to the client. -/
structure JoinOutcome where
  started : Bool
  raised : Bool
  snapshotSent : Option (List (List Nat))
deriving DecidableEq

/-- `SharedTerminalSession.add_client` (server.py lines 121-138): append the
websocket to `_clients`; if the session is not running, start it (a failure
there propagates); then send the capture-pane snapshot, swallowing failures. -/
def addClient (ws : Nat) (startOk captureOk sendOk : Bool) (newFd newPid : Nat)
    (history : List (List Nat)) (s : SessionState) : SessionState × JoinOutcome :=
  let s1 := { s with clients := s.clients ++ [ws] }
  if s1.running then
    (s1, { started := false
           raised := false
           snapshotSent := joinSnapshot captureOk sendOk history })
  else
    let r := startTmuxSession startOk newFd newPid s1
    if r.2 then
      (r.1, { started := true
              raised := false
              snapshotSent := joinSnapshot captureOk sendOk history })
    else (r.1, { started := true, raised := true, snapshotSent := none })

/-- `SharedTerminalSession.remove_client` on the client list (server.py lines
140-143): `if ws in self._clients: self._clients.remove(ws)` — remove the
first occurrence if present, otherwise do nothing. -/
def removeClientList (ws : Nat) (l : List Nat) : List Nat :=
  if ws ∈ l then l.erase ws else l

/-- `SharedTerminalSession.remove_client` lifted to the session state. -/
def removeClient (ws : Nat) (s : SessionState) : SessionState :=
  { s with clients := removeClientList ws s.clients }

/-! ### The broadcast fan-out -/

/-- Fan-out of one tick (server.py lines 230-236): iterate the client list,
try `send_str(text)` on each, collect the clients whose send raised.  Returns
the deliveries that succeeded (in iteration order) and the dead clients (in
iteration order).  `sendOk` is the per-client send oracle for this tick. -/
def fanOut (sendOk : Nat → Bool) (text : List Nat) : List Nat →
    List (Nat × List Nat) × List Nat
  | [] => ([], [])
  | c :: cs =>
    let r := fanOut sendOk text cs
    if sendOk c then ((c, text) :: r.1, r.2) else (r.1, c :: r.2)

/-- Pruning of dead clients after the fan-out (server.py lines 237-239):
for each collected dead client, remove it from the list if still present. -/
def pruneDead (clients dead : List Nat) : List Nat :=
  dead.foldl (fun l dc => if dc ∈ l then l.erase dc else l) clients

/-- One broadcast tick on a non-empty chunk `data` (server.py lines 225-239):
decode the chunk with replacement, send the text to every registered client,
then prune the clients whose send raised.  Returns the new client list and the
successful deliveries. -/
def broadcastTick (sendOk : Nat → Bool) (clients : List Nat) (data : List Nat) :
    List Nat × List (Nat × List Nat) :=
  let text := payloadOf data
  let r := fanOut sendOk text clients
  (pruneDead clients r.2, r.1)

/-- A run of consecutive broadcast ticks over a list of chunks, returning the
final client list and the concatenated delivery events. -/
def runBroadcast (sendOk : Nat → Bool) : List Nat → List (List Nat) →
    List Nat × List (Nat × List Nat)
  | clients, [] => (clients, [])
  | clients, d :: ds =>
    let t := broadcastTick sendOk clients d
    let rest := runBroadcast sendOk t.1 ds
    (rest.1, t.2 ++ rest.2)

/-- The transcript of payloads delivered to client `c` within an event list. -/
def deliveredTo (events : List (Nat × List Nat)) (c : Nat) : List (List Nat) :=
  (events.filter (fun e => e.1 == c)).map (fun e => e.2)

/-! ### The read loop state machine -/

/-- Liveness-check period of the read loop: `check_interval = 100`
(server.py line 204). -/
def checkInterval : Nat := 100

/-- What one iteration of the read loop observes from `select` and `os.read`:
a chunk of bytes (possibly empty, a spurious wake), an empty ready read, or a
select timeout. -/
inductive TickInput where
  | data (bytes : List Nat)
  | emptyRead
  | timeout
deriving DecidableEq

/-- Whether a tick input takes the idle branch (`idle_cycles += 1`). -/
def isIdleInput : TickInput → Bool
  | .data bytes => bytes.isEmpty
  | .emptyRead => true
  | .timeout => true

/-- State of the `_read_output` loop: the idle counter plus the session state
it mutates. -/
structure LoopState where
  idleCycles : Nat
  s : SessionState
deriving DecidableEq

/-- Observable result of one loop iteration: whether the periodic child
liveness check (`os.waitpid`) ran, whether the loop exited, and the deliveries
of this tick. -/
structure TickResult where
  checked : Bool
  exited : Bool
  delivered : List (Nat × List Nat)
deriving DecidableEq

/-- Tail of a loop iteration (server.py lines 247-257): when the idle counter
has reached `check_interval`, reset it and poll the child with
`os.waitpid(WNOHANG)`; a confirmed-exited child breaks the loop, after which
`_running` is set to `False` (line 271). -/
def loopCheck (childExited : Bool) (st : LoopState) (deliv : List (Nat × List Nat)) :
    LoopState × TickResult :=
  if checkInterval ≤ st.idleCycles then
    if childExited then
      ({ st with idleCycles := 0, s := { st.s with running := false } },
       { checked := true, exited := true, delivered := deliv })
    else
      ({ st with idleCycles := 0 },
       { checked := true, exited := false, delivered := deliv })
  else (st, { checked := false, exited := false, delivered := deliv })

/-- One iteration of the `_read_output` loop body (server.py lines 206-259):
on a non-empty chunk reset the idle counter and broadcast; otherwise increment
the idle counter; then run the periodic liveness check. -/
def loopTick (sendOk : Nat → Bool) (childExited : Bool) (st : LoopState)
    (inp : TickInput) : LoopState × TickResult :=
  match inp with
  | .data bytes =>
    if bytes.isEmpty then
      loopCheck childExited { st with idleCycles := st.idleCycles + 1 } []
    else
      let r := broadcastTick sendOk st.s.clients bytes
      loopCheck childExited
        { st with idleCycles := 0, s := { st.s with clients := r.1 } } r.2
  | .emptyRead => loopCheck childExited { st with idleCycles := st.idleCycles + 1 } []
  | .timeout => loopCheck childExited { st with idleCycles := st.idleCycles + 1 } []

/-- A run of the read loop over a list of `(input, child exited?)`
observations, stopping when `_running` is false or the loop broke. -/
def runLoop (sendOk : Nat → Bool) (st : LoopState) :
    List (TickInput × Bool) → LoopState × List TickResult
  | [] => (st, [])
  | (inp, ce) :: rest =>
    if st.s.running then
      let r := loopTick sendOk ce st inp
      if r.2.exited then (r.1, [r.2])
      else
        let k := runLoop sendOk r.1 rest
        (k.1, r.2 :: k.2)
    else (st, [])

/-- Number of ticks of a run on which the liveness check ran. -/
def countChecks (rs : List TickResult) : Nat := (rs.filter (fun r => r.checked)).length

/-! ### Sequenced restarts -/

/-- A sequence of successful `_restart_tmux_connection` calls, each supplying
a fresh fd and pid; asyncio serializes concurrent callers (the restart body
contains no internal suspension point), so this is the semantics of N
concurrent `restart` invocations. -/
def restartSeq : List (Nat × Nat) → SessionState → SessionState
  | [], s => s
  | p :: ps, s => restartSeq ps (restartTmux true p.1 p.2 s).1

/-- At most one child process is alive, and it is the one the session points
at. -/
def atMostOneAlive (s : SessionState) : Prop :=
  s.alive.length ≤ 1 ∧ ∀ p ∈ s.alive, s.pid = some p

instance (s : SessionState) : Decidable (atMostOneAlive s) := by
  unfold atMostOneAlive; infer_instance

/-! ### Helper lemmas: the codec is the identity on well-formed UTF-8 -/

lemma utf8Encode_cons (c : Nat) (cs : List Nat) :
    utf8Encode (c :: cs) = utf8EncodeChar c ++ utf8Encode cs := by
  simp [utf8Encode]

lemma contFirst3_bounds (b0 b1 : Nat) (h : contFirst3 b0 b1 = true) :
    0x80 ≤ b1 ∧ b1 ≤ 0xBF ∧ (b0 = 0xE0 → 0xA0 ≤ b1) := by
  unfold contFirst3 at h
  by_cases he : b0 = 0xE0
  · rw [if_pos he] at h
    simp only [decide_eq_true_eq] at h
    exact ⟨by omega, by omega, fun _ => by omega⟩
  · rw [if_neg he] at h
    by_cases hd : b0 = 0xED
    · rw [if_pos hd] at h
      simp only [decide_eq_true_eq] at h
      exact ⟨by omega, by omega, fun hE => absurd hE he⟩
    · rw [if_neg hd] at h
      simp only [isCont, decide_eq_true_eq] at h
      exact ⟨by omega, by omega, fun hE => absurd hE he⟩

lemma contFirst4_bounds (b0 b1 : Nat) (h : contFirst4 b0 b1 = true) :
    0x80 ≤ b1 ∧ b1 ≤ 0xBF ∧ (b0 = 0xF0 → 0x90 ≤ b1) := by
  unfold contFirst4 at h
  by_cases he : b0 = 0xF0
  · rw [if_pos he] at h
    simp only [decide_eq_true_eq] at h
    exact ⟨by omega, by omega, fun _ => by omega⟩
  · rw [if_neg he] at h
    by_cases hd : b0 = 0xF4
    · rw [if_pos hd] at h
      simp only [decide_eq_true_eq] at h
      exact ⟨by omega, by omega, fun hE => absurd hE he⟩
    · rw [if_neg hd] at h
      simp only [isCont, decide_eq_true_eq] at h
      exact ⟨by omega, by omega, fun hE => absurd hE he⟩

lemma encode2_eq (b0 b1 : Nat) (h0 : 0xC2 ≤ b0) (h0' : b0 ≤ 0xDF)
    (h1 : 0x80 ≤ b1) (h1' : b1 ≤ 0xBF) :
    utf8EncodeChar ((b0 - 0xC0) * 0x40 + (b1 - 0x80)) = [b0, b1] := by
  unfold utf8EncodeChar
  rw [if_neg (by omega), if_pos (by omega)]
  have e1 : ((b0 - 0xC0) * 0x40 + (b1 - 0x80)) / 0x40 = b0 - 0xC0 := by omega
  have e2 : ((b0 - 0xC0) * 0x40 + (b1 - 0x80)) % 0x40 = b1 - 0x80 := by omega
  rw [e1, e2]
  have a1 : 0xC0 + (b0 - 0xC0) = b0 := by omega
  have a2 : 0x80 + (b1 - 0x80) = b1 := by omega
  rw [a1, a2]

lemma encode3_eq (b0 b1 b2 : Nat) (h0 : 0xE0 ≤ b0) (h0' : b0 ≤ 0xEF)
    (hcf : contFirst3 b0 b1 = true) (h2 : 0x80 ≤ b2) (h2' : b2 ≤ 0xBF) :
    utf8EncodeChar ((b0 - 0xE0) * 0x1000 + (b1 - 0x80) * 0x40 + (b2 - 0x80))
      = [b0, b1, b2] := by
  obtain ⟨hb1, hb1', hE0⟩ := contFirst3_bounds b0 b1 hcf
  have hlo : 0x800 ≤ (b0 - 0xE0) * 0x1000 + (b1 - 0x80) * 0x40 + (b2 - 0x80) := by
    by_cases he : b0 = 0xE0
    · have := hE0 he; omega
    · omega
  unfold utf8EncodeChar
  rw [if_neg (by omega), if_neg (by omega), if_pos (by omega)]
  have e1 : ((b0 - 0xE0) * 0x1000 + (b1 - 0x80) * 0x40 + (b2 - 0x80)) / 0x1000
      = b0 - 0xE0 := by omega
  have e2 : (((b0 - 0xE0) * 0x1000 + (b1 - 0x80) * 0x40 + (b2 - 0x80)) / 0x40) % 0x40
      = b1 - 0x80 := by omega
  have e3 : ((b0 - 0xE0) * 0x1000 + (b1 - 0x80) * 0x40 + (b2 - 0x80)) % 0x40
      = b2 - 0x80 := by omega
  rw [e1, e2, e3]
  have a1 : 0xE0 + (b0 - 0xE0) = b0 := by omega
  have a2 : 0x80 + (b1 - 0x80) = b1 := by omega
  have a3 : 0x80 + (b2 - 0x80) = b2 := by omega
  rw [a1, a2, a3]

lemma encode4_eq (b0 b1 b2 b3 : Nat) (h0 : 0xF0 ≤ b0) (h0' : b0 ≤ 0xF4)
    (hcf : contFirst4 b0 b1 = true) (h2 : 0x80 ≤ b2) (h2' : b2 ≤ 0xBF)
    (h3 : 0x80 ≤ b3) (h3' : b3 ≤ 0xBF) :
    utf8EncodeChar
        ((b0 - 0xF0) * 0x40000 + (b1 - 0x80) * 0x1000 + (b2 - 0x80) * 0x40
          + (b3 - 0x80))
      = [b0, b1, b2, b3] := by
  obtain ⟨hb1, hb1', hF0⟩ := contFirst4_bounds b0 b1 hcf
  have hlo : 0x10000 ≤ (b0 - 0xF0) * 0x40000 + (b1 - 0x80) * 0x1000
      + (b2 - 0x80) * 0x40 + (b3 - 0x80) := by
    by_cases he : b0 = 0xF0
    · have := hF0 he; omega
    · omega
  unfold utf8EncodeChar
  rw [if_neg (by omega), if_neg (by omega), if_neg (by omega)]
  have e1 : ((b0 - 0xF0) * 0x40000 + (b1 - 0x80) * 0x1000 + (b2 - 0x80) * 0x40
      + (b3 - 0x80)) / 0x40000 = b0 - 0xF0 := by omega
  have e2 : (((b0 - 0xF0) * 0x40000 + (b1 - 0x80) * 0x1000 + (b2 - 0x80) * 0x40
      + (b3 - 0x80)) / 0x1000) % 0x40 = b1 - 0x80 := by omega
  have e3 : (((b0 - 0xF0) * 0x40000 + (b1 - 0x80) * 0x1000 + (b2 - 0x80) * 0x40
      + (b3 - 0x80)) / 0x40) % 0x40 = b2 - 0x80 := by omega
  have e4 : ((b0 - 0xF0) * 0x40000 + (b1 - 0x80) * 0x1000 + (b2 - 0x80) * 0x40
      + (b3 - 0x80)) % 0x40 = b3 - 0x80 := by omega
  rw [e1, e2, e3, e4]
  have a1 : 0xF0 + (b0 - 0xF0) = b0 := by omega
  have a2 : 0x80 + (b1 - 0x80) = b1 := by omega
  have a3 : 0x80 + (b2 - 0x80) = b2 := by omega
  have a4 : 0x80 + (b3 - 0x80) = b3 := by omega
  rw [a1, a2, a3, a4]

lemma utf8Step_ok_encode (b0 : Nat) (rest : List Nat)
    (h : (utf8Step b0 rest).2.2 = true) :
    utf8EncodeChar (utf8Step b0 rest).1 = b0 :: rest.take (utf8Step b0 rest).2.1 := by
  by_cases h0 : b0 ≤ 0x7F
  · simp [utf8Step, h0, utf8EncodeChar]
  · by_cases h2 : 0xC2 ≤ b0 ∧ b0 ≤ 0xDF
    · cases rest with
      | nil => simp [utf8Step, h0, h2] at h
      | cons b1 r =>
        by_cases hc : isCont b1
        · have hb1 := of_decide_eq_true hc
          simp [utf8Step, h0, h2, hc]
          exact encode2_eq b0 b1 h2.1 h2.2 hb1.1 hb1.2
        · simp [utf8Step, h0, h2, hc] at h
    · by_cases h3 : 0xE0 ≤ b0 ∧ b0 ≤ 0xEF
      · match rest with
        | [] => simp [utf8Step, h0, h2, h3] at h
        | [b1] =>
          by_cases hcf : contFirst3 b0 b1
          · simp [utf8Step, h0, h2, h3, hcf] at h
          · simp [utf8Step, h0, h2, h3, hcf] at h
        | b1 :: b2 :: r =>
          by_cases hcf : contFirst3 b0 b1
          · by_cases hc2 : isCont b2
            · have hb2 := of_decide_eq_true hc2
              simp [utf8Step, h0, h2, h3, hcf, hc2]
              exact encode3_eq b0 b1 b2 h3.1 h3.2 hcf hb2.1 hb2.2
            · simp [utf8Step, h0, h2, h3, hcf, hc2] at h
          · simp [utf8Step, h0, h2, h3, hcf] at h
      · by_cases h4 : 0xF0 ≤ b0 ∧ b0 ≤ 0xF4
        · match rest with
          | [] => simp [utf8Step, h0, h2, h3, h4] at h
          | [b1] =>
            by_cases hcf : contFirst4 b0 b1
            · simp [utf8Step, h0, h2, h3, h4, hcf] at h
            · simp [utf8Step, h0, h2, h3, h4, hcf] at h
          | [b1, b2] =>
            by_cases hcf : contFirst4 b0 b1
            · by_cases hc2 : isCont b2
              · simp [utf8Step, h0, h2, h3, h4, hcf, hc2] at h
              · simp [utf8Step, h0, h2, h3, h4, hcf, hc2] at h
            · simp [utf8Step, h0, h2, h3, h4, hcf] at h
          | b1 :: b2 :: b3 :: r =>
            by_cases hcf : contFirst4 b0 b1
            · by_cases hc2 : isCont b2
              · by_cases hc3 : isCont b3
                · have hb2 := of_decide_eq_true hc2
                  have hb3 := of_decide_eq_true hc3
                  simp [utf8Step, h0, h2, h3, h4, hcf, hc2, hc3]
                  exact encode4_eq b0 b1 b2 b3 h4.1 h4.2 hcf hb2.1 hb2.2 hb3.1 hb3.2
                · simp [utf8Step, h0, h2, h3, h4, hcf, hc2, hc3] at h
              · simp [utf8Step, h0, h2, h3, h4, hcf, hc2] at h
            · simp [utf8Step, h0, h2, h3, h4, hcf] at h
        · simp [utf8Step, h0, h2, h3, h4] at h

lemma utf8_roundtrip_aux :
    ∀ (fuel : Nat) (l : List Nat), l.length ≤ fuel → utf8ValidAux fuel l = true →
      utf8Encode (utf8DecodeReplaceAux fuel l) = l := by
  intro fuel
  induction fuel with
  | zero =>
    intro l hl _
    cases l with
    | nil => simp [utf8DecodeReplaceAux, utf8Encode]
    | cons b0 rest => simp at hl
  | succ n ih =>
    intro l hl hv
    cases l with
    | nil => simp [utf8DecodeReplaceAux, utf8Encode]
    | cons b0 rest =>
      simp only [utf8DecodeReplaceAux, utf8ValidAux, Bool.and_eq_true] at hv ⊢
      obtain ⟨hok, hvrest⟩ := hv
      rw [utf8Encode_cons, utf8Step_ok_encode b0 rest hok]
      have hlen : (rest.drop (utf8Step b0 rest).2.1).length ≤ n := by
        rw [List.length_drop]
        simp only [List.length_cons] at hl
        omega
      rw [ih _ hlen hvrest]
      simp [List.take_append_drop]

/-- On a well-formed UTF-8 chunk the decode-then-reencode payload is the chunk
itself. -/
lemma payloadOf_valid (l : List Nat) (h : utf8Valid l = true) : payloadOf l = l :=
  utf8_roundtrip_aux l.length l le_rfl h

/-! ### Helper lemmas: the fan-out and the pruning of dead clients -/

lemma fanOut_eq (sendOk : Nat → Bool) (t : List Nat) :
    ∀ l : List Nat,
      fanOut sendOk t l
        = ((l.filter sendOk).map (fun c => (c, t)), l.filter (fun c => !sendOk c)) := by
  intro l
  induction l with
  | nil => rfl
  | cons c cs ih =>
    by_cases hc : sendOk c
    · simp [fanOut, ih, hc, List.filter_cons]
    · simp only [Bool.not_eq_true] at hc
      simp [fanOut, ih, hc, List.filter_cons]

lemma pruneDead_cons (c : Nat) :
    ∀ (dead cs : List Nat), (∀ d ∈ dead, d ≠ c) →
      pruneDead (c :: cs) dead = c :: pruneDead cs dead := by
  intro dead
  induction dead with
  | nil => intro cs _; rfl
  | cons d ds ih =>
    intro cs hne
    have hdc : d ≠ c := hne d (by simp)
    have htail : ∀ x ∈ ds, x ≠ c := fun x hx => hne x (by simp [hx])
    simp only [pruneDead, List.foldl_cons]
    by_cases hmem : d ∈ cs
    · have hm2 : d ∈ c :: cs := by simp [hmem]
      rw [if_pos hm2, if_pos hmem]
      have herase : (c :: cs).erase d = c :: cs.erase d := by
        rw [List.erase_cons]
        simp [Ne.symm hdc]
      rw [herase]
      exact ih (cs.erase d) htail
    · have hm2 : d ∉ c :: cs := by simp [hmem, hdc]
      rw [if_neg hm2, if_neg hmem]
      exact ih cs htail

lemma pruneDead_filter (ok : Nat → Bool) :
    ∀ l : List Nat, pruneDead l (l.filter (fun c => !ok c)) = l.filter ok := by
  intro l
  induction l with
  | nil => rfl
  | cons c cs ih =>
    by_cases hc : ok c
    · have hf : (c :: cs).filter (fun x => !ok x) = cs.filter (fun x => !ok x) := by
        simp [List.filter_cons, hc]
      rw [hf, pruneDead_cons c _ cs, ih, List.filter_cons_of_pos (by simp [hc])]
      intro d hd
      have : ok d = false := by
        have := List.of_mem_filter hd
        simpa using this
      intro hdc
      rw [hdc] at this
      simp [hc] at this
    · simp only [Bool.not_eq_true] at hc
      have hf : (c :: cs).filter (fun x => !ok x) = c :: cs.filter (fun x => !ok x) := by
        simp [List.filter_cons, hc]
      rw [hf]
      simp only [pruneDead, List.foldl_cons]
      have hm : c ∈ c :: cs := by simp
      rw [if_pos hm, List.erase_cons_head]
      have : pruneDead cs (cs.filter (fun x => !ok x)) = cs.filter ok := ih
      simp only [pruneDead] at this
      rw [this, List.filter_cons_of_neg (by simp [hc])]

lemma broadcastTick_eq (sendOk : Nat → Bool) (clients data : List Nat) :
    broadcastTick sendOk clients data
      = (clients.filter sendOk,
         (clients.filter sendOk).map (fun c => (c, payloadOf data))) := by
  simp only [broadcastTick, fanOut_eq, pruneDead_filter]

lemma deliveredTo_append (a b : List (Nat × List Nat)) (c : Nat) :
    deliveredTo (a ++ b) c = deliveredTo a c ++ deliveredTo b c := by
  simp [deliveredTo, List.filter_append]

lemma deliveredTo_cons_self (c : Nat) (t : List Nat) (rest : List (Nat × List Nat)) :
    deliveredTo ((c, t) :: rest) c = t :: deliveredTo rest c := by
  simp [deliveredTo, List.filter_cons]

lemma deliveredTo_cons_other (a c : Nat) (t : List Nat) (rest : List (Nat × List Nat))
    (h : a ≠ c) : deliveredTo ((a, t) :: rest) c = deliveredTo rest c := by
  simp [deliveredTo, List.filter_cons, h]

lemma deliveredTo_not_mem (sendOk : Nat → Bool) (t : List Nat) (c : Nat) :
    ∀ l : List Nat, c ∉ l →
      deliveredTo ((l.filter sendOk).map (fun x => (x, t))) c = [] := by
  intro l
  induction l with
  | nil => intro _; rfl
  | cons a as ih =>
    intro hc
    have hca : a ≠ c := fun h => hc (by simp [h])
    have hcas : c ∉ as := fun h => hc (by simp [h])
    by_cases ha : sendOk a
    · rw [List.filter_cons_of_pos (by simp [ha]), List.map_cons,
        deliveredTo_cons_other a c t _ hca]
      exact ih hcas
    · simp only [Bool.not_eq_true] at ha
      rw [List.filter_cons_of_neg (by simp [ha])]
      exact ih hcas

lemma deliveredTo_tick (sendOk : Nat → Bool) (t : List Nat) (c : Nat) :
    ∀ l : List Nat, l.Nodup → c ∈ l → sendOk c = true →
      deliveredTo ((l.filter sendOk).map (fun x => (x, t))) c = [t] := by
  intro l
  induction l with
  | nil => intro _ hc _; simp at hc
  | cons a as ih =>
    intro hnd hc hok
    have hnd' := List.nodup_cons.mp hnd
    by_cases hca : c = a
    · subst hca
      rw [List.filter_cons_of_pos (by simp [hok]), List.map_cons,
        deliveredTo_cons_self c t _, deliveredTo_not_mem sendOk t c as hnd'.1]
    · have hcas : c ∈ as := by
        rcases List.mem_cons.mp hc with h | h
        · exact absurd h hca
        · exact h
      by_cases ha : sendOk a
      · rw [List.filter_cons_of_pos (by simp [ha]), List.map_cons,
          deliveredTo_cons_other a c t _ (fun h => hca h.symm)]
        exact ih hnd'.2 hcas hok
      · simp only [Bool.not_eq_true] at ha
        rw [List.filter_cons_of_neg (by simp [ha])]
        exact ih hnd'.2 hcas hok

lemma runBroadcast_transcript (sendOk : Nat → Bool) (c : Nat) (hok : sendOk c = true) :
    ∀ (chunks : List (List Nat)) (clients : List Nat),
      clients.Nodup → c ∈ clients →
      deliveredTo (runBroadcast sendOk clients chunks).2 c = chunks.map payloadOf := by
  intro chunks
  induction chunks with
  | nil => intro clients _ _; rfl
  | cons d ds ih =>
    intro clients hnd hc
    simp only [runBroadcast, broadcastTick_eq, List.map_cons]
    rw [deliveredTo_append, deliveredTo_tick sendOk _ c clients hnd hc hok]
    have hnd2 : (clients.filter sendOk).Nodup := hnd.filter sendOk
    have hc2 : c ∈ clients.filter sendOk := List.mem_filter.mpr ⟨hc, hok⟩
    rw [ih (clients.filter sendOk) hnd2 hc2]
    rfl

/-! ### Helper lemmas: the read loop -/

lemma loopTick_timeout (sendOk : Nat → Bool) (ce : Bool) (st : LoopState) :
    loopTick sendOk ce st .timeout
      = loopCheck ce { st with idleCycles := st.idleCycles + 1 } [] := rfl

lemma loopCheck_lt (ce : Bool) (st : LoopState) (deliv : List (Nat × List Nat))
    (h : st.idleCycles < checkInterval) :
    loopCheck ce st deliv = (st, { checked := false, exited := false, delivered := deliv }) := by
  unfold loopCheck
  rw [if_neg (by omega)]

lemma loopCheck_ge_false (st : LoopState) (deliv : List (Nat × List Nat))
    (h : checkInterval ≤ st.idleCycles) :
    loopCheck false st deliv
      = ({ st with idleCycles := 0 },
         { checked := true, exited := false, delivered := deliv }) := by
  unfold loopCheck
  rw [if_pos h]
  simp

lemma loopCheck_ge_true (st : LoopState) (deliv : List (Nat × List Nat))
    (h : checkInterval ≤ st.idleCycles) :
    loopCheck true st deliv
      = ({ st with idleCycles := 0, s := { st.s with running := false } },
         { checked := true, exited := true, delivered := deliv }) := by
  unfold loopCheck
  rw [if_pos h]
  simp

lemma countChecks_cons (r : TickResult) (rs : List TickResult) :
    countChecks (r :: rs) = (if r.checked then 1 else 0) + countChecks rs := by
  simp only [countChecks, List.filter_cons]
  by_cases h : r.checked
  · rw [if_pos (by simpa using h), if_pos h, List.length_cons]
    omega
  · rw [if_neg (by simpa using h), if_neg h]
    omega

lemma runLoop_idle_count (sendOk : Nat → Bool) :
    ∀ (n : Nat) (st : LoopState), st.s.running = true → st.idleCycles < checkInterval →
      countChecks (runLoop sendOk st (List.replicate n (TickInput.timeout, false))).2
        = (st.idleCycles + n) / checkInterval := by
  intro n
  induction n with
  | zero =>
    intro st hrun hidle
    simp only [List.replicate, runLoop, countChecks, List.filter_nil, List.length_nil,
      checkInterval] at *
    omega
  | succ m ih =>
    intro st hrun hidle
    rw [List.replicate_succ]
    simp only [runLoop, hrun, if_true]
    rw [loopTick_timeout]
    by_cases hge : checkInterval ≤ st.idleCycles + 1
    · rw [loopCheck_ge_false _ _ (by simpa using hge)]
      rw [if_neg Bool.false_ne_true]
      simp only
      rw [countChecks_cons]
      simp only [if_pos]
      have hrun2 : ({ st with idleCycles := 0 } : LoopState).s.running = true := hrun
      have hidle2 : ({ st with idleCycles := 0 } : LoopState).idleCycles < checkInterval := by
        show 0 < checkInterval
        decide
      rw [ih _ hrun2 hidle2]
      have hci : checkInterval = 100 := rfl
      simp only [hci] at hge ⊢
      omega
    · rw [loopCheck_lt _ _ _ (by simp; omega)]
      rw [if_neg Bool.false_ne_true]
      simp only
      rw [countChecks_cons]
      rw [if_neg Bool.false_ne_true]
      have hrun2 : ({ st with idleCycles := st.idleCycles + 1 } : LoopState).s.running = true := hrun
      have hidle2 : ({ st with idleCycles := st.idleCycles + 1 } : LoopState).idleCycles
          < checkInterval := by simp; omega
      rw [ih _ hrun2 hidle2]
      have hci : checkInterval = 100 := rfl
      simp only [hci]
      omega

/-! ### Helper lemmas: restart -/

lemma restartTmux_fields (ok : Bool) (fd pid : Nat) (s : SessionState) :
    (restartTmux ok fd pid s).1.clients = s.clients ∧
    (restartTmux ok fd pid s).1.sessionName = s.sessionName ∧
    (restartTmux ok fd pid s).1.restartCount = s.restartCount + 1 := by
  unfold restartTmux startTmuxSession
  cases hp : s.pid <;> cases ok <;> simp

lemma restartTmux_ok_eq (fd pid : Nat) (s : SessionState) (h : atMostOneAlive s) :
    (restartTmux true fd pid s).1
      = { s with
          masterFd := some fd
          pid := some pid
          running := true
          spawnCount := s.spawnCount + 1
          restartCount := s.restartCount + 1
          alive := [pid] } := by
  obtain ⟨hlen, hpid⟩ := h
  unfold restartTmux startTmuxSession
  cases hp : s.pid with
  | none =>
    have halive : s.alive = [] := by
      cases ha : s.alive with
      | nil => rfl
      | cons x xs =>
        have := hpid x (by simp [ha])
        rw [hp] at this
        simp at this
    simp [halive]
  | some p =>
    have halive : s.alive.erase p = [] := by
      cases ha : s.alive with
      | nil => rfl
      | cons x xs =>
        have hx := hpid x (by simp [ha])
        rw [hp] at hx
        have hxp : x = p := by
          injection hx with h2
          exact h2.symm
        have hxs : xs = [] := by
          rw [ha] at hlen
          simp only [List.length_cons] at hlen
          exact List.length_eq_zero.mp (by omega)
        subst hxp
        subst hxs
        simp [List.erase_cons_head]
    simp [halive]

lemma atMostOneAlive_after (fd pid : Nat) (s : SessionState) (h : atMostOneAlive s) :
    atMostOneAlive (restartTmux true fd pid s).1 := by
  rw [restartTmux_ok_eq fd pid s h]
  constructor
  · simp
  · intro p hp
    simp at hp
    simp [hp]

lemma restartSeq_spec :
    ∀ (ps : List (Nat × Nat)) (s : SessionState), atMostOneAlive s →
      (restartSeq ps s).spawnCount = s.spawnCount + ps.length ∧
      atMostOneAlive (restartSeq ps s) ∧
      (ps ≠ [] → (restartSeq ps s).running = true) := by
  intro ps
  induction ps with
  | nil => intro s h; exact ⟨by simp [restartSeq], h, fun hne => absurd rfl hne⟩
  | cons p rest ih =>
    intro s h
    have hstep := restartTmux_ok_eq p.1 p.2 s h
    have h2 := atMostOneAlive_after p.1 p.2 s h
    simp only [restartSeq]
    obtain ⟨hcnt, hinv, hrun⟩ := ih (restartTmux true p.1 p.2 s).1 h2
    refine ⟨?_, hinv, fun _ => ?_⟩
    · rw [hcnt, hstep]
      simp [List.length_cons]
      omega
    · cases hre : rest with
      | nil =>
        simp only [hre, restartSeq] at *
        rw [hstep]
      | cons q qs =>
        rw [← hre]
        exact hrun (by simp [hre])

/-! ### Helper lemmas: loop checks and the write paths -/

lemma loopCheck_checked (ce : Bool) (st : LoopState) (deliv : List (Nat × List Nat)) :
    (loopCheck ce st deliv).2.checked = true ↔ checkInterval ≤ st.idleCycles := by
  unfold loopCheck
  by_cases h : checkInterval ≤ st.idleCycles
  · rw [if_pos h]
    cases ce <;> simp [h]
  · rw [if_neg h]
    simp [h]

lemma loopCheck_idle_lt (ce : Bool) (st : LoopState) (deliv : List (Nat × List Nat)) :
    (loopCheck ce st deliv).1.idleCycles < checkInterval := by
  have h100 : (0 : Nat) < checkInterval := by decide
  unfold loopCheck
  by_cases hge : checkInterval ≤ st.idleCycles
  · rw [if_pos hge]
    cases ce <;> simpa using h100
  · rw [if_neg hge]
    simp
    omega

lemma loopCheck_exit (st : LoopState) (deliv : List (Nat × List Nat))
    (h : (loopCheck true st deliv).2.checked = true) :
    (loopCheck true st deliv).2.exited = true ∧
    (loopCheck true st deliv).1.s.running = false := by
  unfold loopCheck at h ⊢
  by_cases hge : checkInterval ≤ st.idleCycles
  · rw [if_pos hge]
    simp
  · rw [if_neg hge] at h
    simp at h

lemma writeFallback_spec (startOk : Bool) (fd pid : Nat) (data : List Nat) (att : Nat)
    (s : SessionState) :
    (writeFallback startOk fd pid data att s).2.fallbackArg = some data ∧
    (writeFallback startOk fd pid data att s).2.usedDirect = false ∧
    (writeFallback startOk fd pid data att s).2.directAttempts = att ∧
    (writeFallback startOk fd pid data att s).2.restartAttempted = !s.running := by
  unfold writeFallback
  by_cases h : s.running
  · rw [if_pos h]
    simp [h]
  · simp only [Bool.not_eq_true] at h
    rw [if_neg (by simp [h])]
    simp [h]

lemma writeInput_direct (startOk : Bool) (fd pid : Nat) (data : List Nat)
    (s : SessionState) (hfd : s.masterFd.isSome = true) (hrun : s.running = true) :
    writeInput true startOk fd pid data s
      = (s, { directAttempts := 1
              usedDirect := true
              fallbackArg := none
              restartAttempted := false }) := by
  unfold writeInput
  rw [if_pos (by simp [hfd, hrun]), if_pos rfl]

lemma restartTmux_running (ok : Bool) (fd pid : Nat) (s : SessionState) :
    (restartTmux ok fd pid s).1.running = ok := by
  unfold restartTmux startTmuxSession
  cases hp : s.pid <;> cases ok <;> simp

lemma restartTmux_true_fields (fd pid : Nat) (s : SessionState) :
    (restartTmux true fd pid s).1.masterFd = some fd ∧
    (restartTmux true fd pid s).1.running = true := by
  unfold restartTmux startTmuxSession
  cases hp : s.pid <;> simp

lemma tmuxCapturePane_spec (cap : Nat) (history : List (List Nat)) :
    (tmuxCapturePane cap history).length = min cap history.length ∧
    tmuxCapturePane cap history <:+ history := by
  constructor
  · simp only [tmuxCapturePane, List.length_drop]
    omega
  · exact List.drop_suffix _ _

/-! ### Claim theorems -/

/-- C1 (amended): in every broadcast tick, the clients registered at the start
of the fan-out whose sends do not fail are each delivered the tick's payload,
in registration order; that payload is the UTF-8 replace-decoding re-encoding
of the chunk and equals the chunk's bytes exactly when the chunk is
well-formed UTF-8; and any two clients attached at the same time, none of
whose sends fail, receive the chunks as identical transcripts, hence in the
same relative order. -/
theorem broadcast_fanout_order :
    (∀ (sendOk : Nat → Bool) (clients data : List Nat),
      (broadcastTick sendOk clients data).2
        = (clients.filter sendOk).map (fun c => (c, payloadOf data))) ∧
    (∀ data : List Nat, utf8Valid data = true → payloadOf data = data) ∧
    (∀ (sendOk : Nat → Bool) (clients : List Nat) (chunks : List (List Nat))
        (c1 c2 : Nat), clients.Nodup → c1 ∈ clients → c2 ∈ clients →
        sendOk c1 = true → sendOk c2 = true →
        deliveredTo (runBroadcast sendOk clients chunks).2 c1
          = deliveredTo (runBroadcast sendOk clients chunks).2 c2) := by
  refine ⟨?_, payloadOf_valid, ?_⟩
  · intro sendOk clients data
    rw [broadcastTick_eq]
  · intro sendOk clients chunks c1 c2 hnd h1 h2 hok1 hok2
    rw [runBroadcast_transcript sendOk c1 hok1 chunks clients hnd h1,
      runBroadcast_transcript sendOk c2 hok2 chunks clients hnd h2]

/-- C1 counterexample: for the chunk consisting of the single byte 0x80 the
client registered at the start of the tick is sent the replacement character's
UTF-8 bytes, not the chunk's byte, so it is not sent exactly the chunk's
bytes. -/
theorem broadcast_fanout_counterexample :
    (broadcastTick (fun _ => true) [5] [0x80]).2 = [(5, [0xEF, 0xBF, 0xBD])] ∧
    (5, [0x80]) ∉ (broadcastTick (fun _ => true) [5] [0x80]).2 := by
  decide

/-- C1 witness: concrete instance of the amended theorem. -/
theorem broadcast_fanout_order_witness :
    utf8Valid [104, 105] = true ∧ payloadOf [104, 105] = [104, 105] ∧
    deliveredTo (runBroadcast (fun _ => true) [1, 2] [[104], [105]]).2 1
      = deliveredTo (runBroadcast (fun _ => true) [1, 2] [[104], [105]]).2 2 :=
  ⟨by decide, broadcast_fanout_order.2.1 [104, 105] (by decide),
   broadcast_fanout_order.2.2 (fun _ => true) [1, 2] [[104], [105]] 1 2 (by decide)
     (by decide) (by decide) (by decide) (by decide)⟩

/-- C2: in every broadcast tick, exactly the clients whose sends failed are
removed from the client list, and every other registered client is still
delivered the tick's payload within the same tick — a per-client send failure
never aborts the tick. -/
theorem tick_failure_isolation :
    ∀ (sendOk : Nat → Bool) (clients data : List Nat),
      (broadcastTick sendOk clients data).1 = clients.filter sendOk ∧
      (∀ c ∈ clients, sendOk c = false →
        c ∉ (broadcastTick sendOk clients data).1) ∧
      (∀ c ∈ clients, sendOk c = true →
        (c, payloadOf data) ∈ (broadcastTick sendOk clients data).2) := by
  intro sendOk clients data
  refine ⟨by rw [broadcastTick_eq], ?_, ?_⟩
  · intro c _ hfail hmem
    rw [broadcastTick_eq] at hmem
    have := (List.mem_filter.mp hmem).2
    rw [hfail] at this
    exact Bool.false_ne_true this
  · intro c hc hok
    rw [broadcastTick_eq]
    exact List.mem_map_of_mem _ (List.mem_filter.mpr ⟨hc, hok⟩)

/-- C2 witness: with two registered clients and the send to client 1 failing,
client 1 is pruned and client 2 is still delivered the payload. -/
theorem tick_failure_isolation_witness :
    (2 : Nat) ∈ ([1, 2] : List Nat) ∧
    ((2 : Nat), payloadOf [104]) ∈ (broadcastTick (fun c => c != 1) [1, 2] [104]).2 ∧
    (1 : Nat) ∉ (broadcastTick (fun c => c != 1) [1, 2] [104]).1 :=
  ⟨by decide,
   (tick_failure_isolation (fun c => c != 1) [1, 2] [104]).2.2 2 (by decide) (by decide),
   (tick_failure_isolation (fun c => c != 1) [1, 2] [104]).2.1 1 (by decide) (by decide)⟩

/-- C3 (amended): whenever the direct PTY path is unavailable or its write
fails, the fallback is invoked with the literal bytes the client sent (the
escaped form computed on server.py line 287 is never used); the direct path is
attempted at most once per route call (never retried); but the restart is
awaited synchronously inside the same `write` call — when it succeeds the
session is running again before the call returns — and a second write arriving
while the session is still down triggers another restart attempt rather than
being coalesced with the pending one. -/
theorem write_fallback_behavior :
    (∀ (ptyOk startOk : Bool) (fd pid : Nat) (data : List Nat) (s : SessionState),
      (s.masterFd.isSome && s.running) = false ∨ ptyOk = false →
      (writeInput ptyOk startOk fd pid data s).2.fallbackArg = some data ∧
      (writeInput ptyOk startOk fd pid data s).2.usedDirect = false) ∧
    (∀ (ptyOk startOk : Bool) (fd pid : Nat) (data : List Nat) (s : SessionState),
      (writeInput ptyOk startOk fd pid data s).2.directAttempts ≤ 1) ∧
    (∀ (startOk : Bool) (fd pid : Nat) (data : List Nat) (s : SessionState),
      s.running = false →
      (writeInput true startOk fd pid data s).2.restartAttempted = true ∧
      (writeInput true startOk fd pid data s).1.restartCount = s.restartCount + 1 ∧
      (startOk = true → (writeInput true startOk fd pid data s).1.running = true) ∧
      (startOk = false → (writeInput true startOk fd pid data s).1.running = false)) := by
  refine ⟨?_, ?_, ?_⟩
  · intro ptyOk startOk fd pid data s hyp
    by_cases hcond : (s.masterFd.isSome && s.running) = true
    · have hpty : ptyOk = false := by
        rcases hyp with h | h
        · rw [hcond] at h
          exact absurd h (by decide)
        · exact h
      subst hpty
      unfold writeInput
      rw [if_pos hcond, if_neg Bool.false_ne_true]
      exact ⟨(writeFallback_spec startOk fd pid data 1 _).1,
        (writeFallback_spec startOk fd pid data 1 _).2.1⟩
    · unfold writeInput
      rw [if_neg hcond]
      exact ⟨(writeFallback_spec startOk fd pid data 0 s).1,
        (writeFallback_spec startOk fd pid data 0 s).2.1⟩
  · intro ptyOk startOk fd pid data s
    unfold writeInput
    by_cases hcond : (s.masterFd.isSome && s.running) = true
    · rw [if_pos hcond]
      by_cases hpty : ptyOk = true
      · subst hpty
        rw [if_pos rfl]
      · rw [if_neg hpty]
        rw [(writeFallback_spec startOk fd pid data 1 _).2.2.1]
    · rw [if_neg hcond]
      rw [(writeFallback_spec startOk fd pid data 0 s).2.2.1]
      omega
  · intro startOk fd pid data s hrun
    have hcond : (s.masterFd.isSome && s.running) = false := by simp [hrun]
    unfold writeInput
    rw [if_neg (by simp [hcond])]
    unfold writeFallback
    rw [if_neg (by simp [hrun])]
    refine ⟨rfl, (restartTmux_fields startOk fd pid s).2.2, ?_, ?_⟩
    · intro hok
      subst hok
      exact (restartTmux_true_fields fd pid s).2
    · intro hok
      subst hok
      exact restartTmux_running false fd pid s

/-- C3 counterexample: starting from the idle initial state with the tmux
restart failing, two consecutive writes both go through the fallback with
their literal bytes and each triggers its own restart attempt — the second
write does cause a duplicate restart, with the restart executed inside the
route call. -/
theorem write_fallback_counterexample :
    (writeInput false false 0 0 [97] initialState).2.fallbackArg = some [97] ∧
    (writeInput false false 0 0 [97] initialState).2.restartAttempted = true ∧
    (writeInput false false 0 0 [98]
        (writeInput false false 0 0 [97] initialState).1).2.fallbackArg = some [98] ∧
    (writeInput false false 0 0 [98]
        (writeInput false false 0 0 [97] initialState).1).2.restartAttempted = true ∧
    (writeInput false false 0 0 [98]
        (writeInput false false 0 0 [97] initialState).1).1.restartCount = 2 := by
  decide

/-- C3 witness: concrete instance of the amended theorem. -/
theorem write_fallback_behavior_witness :
    (initialState.masterFd.isSome && initialState.running) = false ∧
    (writeInput false true 2 100 [97] initialState).2.fallbackArg = some [97] ∧
    initialState.running = false ∧
    (writeInput true true 2 100 [97] initialState).1.running = true := by
  have h1 := write_fallback_behavior.1 false true 2 100 [97] initialState
    (Or.inl (by decide))
  have h3 := write_fallback_behavior.2.2 true 2 100 [97] initialState rfl
  exact ⟨by decide, h1.1, rfl, h3.2.2.1 rfl⟩

/-- C4 (amended): `_restart_tmux_connection` is not idempotent under
concurrency — the event loop serializes the callers (the restart body has no
internal suspension point) and each of the N serialized calls performs a full
teardown and spawn, so N calls spawn N processes; each call first kills the
previous child, so at most one child is alive at any time, and after the calls
the session is running. -/
theorem restart_not_collapsed :
    ∀ (ps : List (Nat × Nat)) (s : SessionState), atMostOneAlive s →
      (restartSeq ps s).spawnCount = s.spawnCount + ps.length ∧
      atMostOneAlive (restartSeq ps s) ∧
      (ps ≠ [] → (restartSeq ps s).running = true) :=
  restartSeq_spec

/-- C4 counterexample: two callers of restart from the initial state spawn two
child processes, not exactly one. -/
theorem restart_spawn_counterexample :
    (restartTmux true 2 100 initialState).1.spawnCount = 1 ∧
    (restartTmux true 3 101 (restartTmux true 2 100 initialState).1).1.spawnCount = 2 := by
  decide

/-- C4 witness: concrete instance of the amended theorem. -/
theorem restart_not_collapsed_witness :
    atMostOneAlive initialState ∧
    (restartSeq [(2, 100), (3, 101)] initialState).spawnCount = 2 ∧
    (restartSeq [(2, 100), (3, 101)] initialState).running = true := by
  have h := restart_not_collapsed [(2, 100), (3, 101)] initialState (by decide)
  refine ⟨by decide, ?_, h.2.2 (by decide)⟩
  rw [h.1]
  decide

/-- C5: a restart leaves the registered-client list and the session name
untouched whatever its outcome, and after a successful restart a subsequent
write succeeds via the primary PTY path again (one direct write, no fallback,
no further restart). -/
theorem restart_preserves_clients :
    ∀ (ok : Bool) (fd pid : Nat) (s : SessionState),
      (restartTmux ok fd pid s).1.clients = s.clients ∧
      (restartTmux ok fd pid s).1.sessionName = s.sessionName ∧
      (∀ (startOk : Bool) (fd2 pid2 : Nat) (data : List Nat),
        writeInput true startOk fd2 pid2 data (restartTmux true fd pid s).1
          = ((restartTmux true fd pid s).1,
             { directAttempts := 1
               usedDirect := true
               fallbackArg := none
               restartAttempted := false })) := by
  intro ok fd pid s
  refine ⟨(restartTmux_fields ok fd pid s).1, (restartTmux_fields ok fd pid s).2.1, ?_⟩
  intro startOk fd2 pid2 data
  exact writeInput_direct startOk fd2 pid2 data _
    (by rw [(restartTmux_true_fields fd pid s).1]; rfl)
    (restartTmux_true_fields fd pid s).2

lemma startTmuxSession_true (fd pid : Nat) (s : SessionState) :
    startTmuxSession true fd pid s
      = ({ s with
            masterFd := some fd
            pid := some pid
            running := true
            spawnCount := s.spawnCount + 1
            alive := s.alive ++ [pid] }, true) := by
  unfold startTmuxSession
  rw [if_pos rfl]

lemma startTmuxSession_false (fd pid : Nat) (s : SessionState) :
    startTmuxSession false fd pid s = ({ s with running := false }, false) := by
  unfold startTmuxSession
  rw [if_neg Bool.false_ne_true]

lemma joinSnapshot_some (captureOk sendOk : Bool) (history : List (List Nat)) :
    ∀ snap, joinSnapshot captureOk sendOk history = some snap →
      snap = tmuxCapturePane historyCap history ∧
      snap.length = min historyCap history.length ∧
      snap <:+ history := by
  intro snap h
  unfold joinSnapshot at h
  by_cases hc : (captureOk && !(tmuxCapturePane historyCap history).isEmpty && sendOk)
      = true
  · rw [if_pos hc] at h
    injection h with h2
    subst h2
    exact ⟨rfl, (tmuxCapturePane_spec historyCap history).1,
      (tmuxCapturePane_spec historyCap history).2⟩
  · rw [if_neg hc] at h
    exact absurd h (by simp)

/-- C6: a join appends the client to the registry, invokes the session start
exactly when no session is running, and any snapshot it delivers to the new
client is the capture of the most recent history, of length exactly
`min cap |history|` (never exceeding the 1000-line cap), and a suffix of the
history (FIFO eviction: only the newest lines survive). -/
theorem join_registers_and_snapshot :
    ∀ (ws : Nat) (startOk captureOk sendOk : Bool) (fd pid : Nat)
      (history : List (List Nat)) (s : SessionState),
      (addClient ws startOk captureOk sendOk fd pid history s).1.clients
        = s.clients ++ [ws] ∧
      ((addClient ws startOk captureOk sendOk fd pid history s).2.started = true
        ↔ s.running = false) ∧
      (∀ snap, (addClient ws startOk captureOk sendOk fd pid history s).2.snapshotSent
          = some snap →
        snap = tmuxCapturePane historyCap history ∧
        snap.length = min historyCap history.length ∧
        snap <:+ history) := by
  intro ws startOk captureOk sendOk fd pid history s
  by_cases hrun : s.running = true
  · simp only [addClient]
    rw [if_pos hrun]
    exact ⟨rfl, by simp [hrun], joinSnapshot_some captureOk sendOk history⟩
  · have hrun' : s.running = false := by simpa using hrun
    simp only [addClient]
    rw [if_neg hrun]
    cases startOk with
    | true =>
      rw [startTmuxSession_true, if_pos rfl]
      exact ⟨rfl, by simp [hrun'], joinSnapshot_some captureOk sendOk history⟩
    | false =>
      rw [startTmuxSession_false, if_neg Bool.false_ne_true]
      refine ⟨rfl, by simp [hrun'], ?_⟩
      intro snap h
      exact absurd h (by simp)

/-- C6 witness: concrete instance of the join theorem. -/
theorem join_registers_and_snapshot_witness :
    (addClient 7 true true true 3 50 [[104], [105]] runningState).2.snapshotSent
        = some [[104], [105]] ∧
    ([[104], [105]] : List (List Nat)) <:+ [[104], [105]] ∧
    ([[104], [105]] : List (List Nat)).length = min historyCap 2 := by
  have h := (join_registers_and_snapshot 7 true true true 3 50 [[104], [105]]
      runningState).2.2 [[104], [105]] (by decide)
  exact ⟨by decide, h.2.2, by decide⟩

/-- C7: the read loop runs its explicit child-liveness check exactly on the
ticks where the idle counter has just reached the 100-tick interval — never on
a tick that carried data — the idle counter stays below the interval so checks
recur only after a full idle period, a pure-idle run of n ticks performs
exactly n / 100 checks, and when a check confirms the child exited the loop
exits with `_running` set to `False`, the very condition that routes the next
`write` into the recovery restart. -/
theorem liveness_check_period :
    (∀ (sendOk : Nat → Bool) (ce : Bool) (st : LoopState) (inp : TickInput),
      ((loopTick sendOk ce st inp).2.checked = true
        ↔ (isIdleInput inp = true ∧ checkInterval ≤ st.idleCycles + 1))) ∧
    (∀ (sendOk : Nat → Bool) (ce : Bool) (st : LoopState) (inp : TickInput),
      (loopTick sendOk ce st inp).1.idleCycles < checkInterval) ∧
    (∀ (sendOk : Nat → Bool) (st : LoopState) (inp : TickInput),
      (loopTick sendOk true st inp).2.checked = true →
      (loopTick sendOk true st inp).2.exited = true ∧
      (loopTick sendOk true st inp).1.s.running = false) ∧
    (∀ (sendOk : Nat → Bool) (n : Nat) (st : LoopState),
      st.s.running = true → st.idleCycles < checkInterval →
      countChecks (runLoop sendOk st (List.replicate n (TickInput.timeout, false))).2
        = (st.idleCycles + n) / checkInterval) ∧
    (∀ (ptyOk startOk : Bool) (fd pid : Nat) (data : List Nat) (s : SessionState),
      s.running = false →
      (writeInput ptyOk startOk fd pid data s).2.restartAttempted = true) := by
  refine ⟨?_, ?_, ?_, runLoop_idle_count, ?_⟩
  · intro sendOk ce st inp
    cases inp with
    | data bytes =>
      by_cases hb : bytes.isEmpty = true
      · simp only [loopTick]
        rw [if_pos hb, loopCheck_checked]
        simp [isIdleInput, hb]
      · simp only [loopTick]
        rw [if_neg hb, loopCheck_checked]
        simp only [isIdleInput, hb]
        simp [checkInterval]
    | emptyRead =>
      simp only [loopTick]
      rw [loopCheck_checked]
      simp [isIdleInput]
    | timeout =>
      simp only [loopTick]
      rw [loopCheck_checked]
      simp [isIdleInput]
  · intro sendOk ce st inp
    cases inp with
    | data bytes =>
      by_cases hb : bytes.isEmpty = true
      · simp only [loopTick]
        rw [if_pos hb]
        exact loopCheck_idle_lt _ _ _
      · simp only [loopTick]
        rw [if_neg hb]
        exact loopCheck_idle_lt _ _ _
    | emptyRead =>
      simp only [loopTick]
      exact loopCheck_idle_lt _ _ _
    | timeout =>
      simp only [loopTick]
      exact loopCheck_idle_lt _ _ _
  · intro sendOk st inp hch
    cases inp with
    | data bytes =>
      by_cases hb : bytes.isEmpty = true
      · simp only [loopTick] at hch ⊢
        rw [if_pos hb] at hch ⊢
        exact loopCheck_exit _ _ hch
      · simp only [loopTick] at hch ⊢
        rw [if_neg hb] at hch ⊢
        exact loopCheck_exit _ _ hch
    | emptyRead =>
      simp only [loopTick] at hch ⊢
      exact loopCheck_exit _ _ hch
    | timeout =>
      simp only [loopTick] at hch ⊢
      exact loopCheck_exit _ _ hch
  · intro ptyOk startOk fd pid data s hrun
    unfold writeInput
    rw [if_neg (by simp [hrun])]
    rw [(writeFallback_spec startOk fd pid data 0 s).2.2.2, hrun]
    rfl

/-- C7 witness: concrete instances of the liveness-check theorem. -/
theorem liveness_check_period_witness :
    isIdleInput TickInput.timeout = true ∧
    (loopTick (fun _ => true) false { idleCycles := 99, s := runningState }
        TickInput.timeout).2.checked = true ∧
    countChecks (runLoop (fun _ => true) { idleCycles := 0, s := runningState }
        (List.replicate 100 (TickInput.timeout, false))).2 = 1 ∧
    (writeInput true false 2 100 [97] initialState).2.restartAttempted = true := by
  have ha := (liveness_check_period.1 (fun _ => true) false
      { idleCycles := 99, s := runningState } TickInput.timeout).mpr ⟨rfl, by decide⟩
  have hc := liveness_check_period.2.2.2.1 (fun _ => true) 100
      { idleCycles := 0, s := runningState } rfl (by decide)
  have he := liveness_check_period.2.2.2.2 true false 2 100 [97] initialState rfl
  refine ⟨rfl, ha, ?_, he⟩
  rw [hc]
  decide

/-- C8 (amended): the payload a client is delivered for a chunk is the UTF-8
re-encoding of the chunk's replace-decoding; on every well-formed UTF-8 chunk
this is exactly the raw chunk bytes, unaltered. -/
theorem payload_raw_when_valid :
    ∀ (sendOk : Nat → Bool) (clients data : List Nat), utf8Valid data = true →
      (broadcastTick sendOk clients data).2
        = (clients.filter sendOk).map (fun c => (c, data)) := by
  intro sendOk clients data h
  rw [broadcastTick_eq, payloadOf_valid data h]

/-- C8 counterexample: for the chunk 0xFF the delivered payload is the
replacement character's UTF-8 bytes, not the raw chunk byte — the core does
transform ill-formed output. -/
theorem payload_raw_counterexample :
    payloadOf [0xFF] = [0xEF, 0xBF, 0xBD] ∧ payloadOf [0xFF] ≠ [0xFF] ∧
    (broadcastTick (fun _ => true) [0] [0xFF]).2 = [(0, [0xEF, 0xBF, 0xBD])] := by
  decide

/-- C8 witness: concrete instance of the amended theorem. -/
theorem payload_raw_when_valid_witness :
    utf8Valid [104, 10] = true ∧
    (broadcastTick (fun _ => true) [4] [104, 10]).2 = [(4, [104, 10])] :=
  ⟨by decide, payload_raw_when_valid (fun _ => true) [4] [104, 10] (by decide)⟩

/-- C9: when the snapshot phase of a join fails (capture-pane failing or the
snapshot send raising), the failure is swallowed: the join does not raise,
nothing is delivered as a snapshot, the client is still registered, and the
client is delivered the payload of any subsequent broadcast tick whose send to
it succeeds. -/
theorem join_snapshot_failure_swallowed :
    ∀ (ws : Nat) (startOk captureOk sendOk : Bool) (fd pid : Nat)
      (history : List (List Nat)) (s : SessionState) (data : List Nat)
      (sendOk2 : Nat → Bool),
      s.running = true → captureOk = false ∨ sendOk = false →
      (addClient ws startOk captureOk sendOk fd pid history s).2.raised = false ∧
      (addClient ws startOk captureOk sendOk fd pid history s).2.snapshotSent
        = none ∧
      (addClient ws startOk captureOk sendOk fd pid history s).1.clients
        = s.clients ++ [ws] ∧
      (sendOk2 ws = true →
        (ws, payloadOf data) ∈
          (broadcastTick sendOk2
            (addClient ws startOk captureOk sendOk fd pid history s).1.clients
            data).2) := by
  intro ws startOk captureOk sendOk fd pid history s data sendOk2 hrun hfail
  have hnone : joinSnapshot captureOk sendOk history = none := by
    unfold joinSnapshot
    rcases hfail with h | h <;> subst h <;> simp
  simp only [addClient]
  rw [if_pos hrun]
  refine ⟨rfl, hnone, rfl, ?_⟩
  intro hok
  rw [broadcastTick_eq]
  exact List.mem_map_of_mem _ (List.mem_filter.mpr ⟨by simp, hok⟩)

/-- C9 witness: a failing capture during the join of client 9 is swallowed and
client 9 still receives the next broadcast. -/
theorem join_snapshot_failure_swallowed_witness :
    runningState.running = true ∧
    (addClient 9 true false true 3 50 [[104]] runningState).2.raised = false ∧
    (9, payloadOf [104]) ∈
      (broadcastTick (fun _ => true)
        (addClient 9 true false true 3 50 [[104]] runningState).1.clients [104]).2 := by
  have h := join_snapshot_failure_swallowed 9 true false true 3 50 [[104]]
      runningState [104] (fun _ => true) rfl (Or.inl rfl)
  exact ⟨rfl, h.1, h.2.2.2 rfl⟩

/-- C10 (amended): `remove_client` never raises (it is a total operation), it
leaves the list unchanged when the websocket is not registered, and it is
idempotent on every list in which the websocket occurs at most once — which is
every state the server reaches, since each connection registers one fresh
websocket; on a list holding duplicates a second call removes a second
occurrence. -/
theorem remove_client_amended :
    ∀ (ws : Nat) (l : List Nat),
      (ws ∉ l → removeClientList ws l = l) ∧
      (l.count ws ≤ 1 →
        removeClientList ws (removeClientList ws l) = removeClientList ws l) := by
  intro ws l
  constructor
  · intro h
    unfold removeClientList
    rw [if_neg h]
  · intro hcount
    by_cases hm : ws ∈ l
    · have h1 : removeClientList ws l = l.erase ws := by
        unfold removeClientList
        rw [if_pos hm]
      have hpos : l.count ws ≠ 0 := fun h0 => (List.count_eq_zero.mp h0) hm
      have hc0 : (l.erase ws).count ws = 0 := by
        rw [List.count_erase_self]
        omega
      have hnm : ws ∉ l.erase ws := List.count_eq_zero.mp hc0
      rw [h1]
      unfold removeClientList
      rw [if_neg hnm]
    · have h1 : removeClientList ws l = l := by
        unfold removeClientList
        rw [if_neg hm]
      rw [h1, h1]

/-- C10 counterexample: on the registry state [7, 7], removing websocket 7
twice in a row leaves the empty list while removing it once leaves [7] — the
operation is not idempotent on every registry state. -/
theorem remove_client_counterexample :
    removeClientList 7 [7, 7] = [7] ∧
    removeClientList 7 (removeClientList 7 [7, 7]) = [] ∧
    removeClientList 7 (removeClientList 7 [7, 7]) ≠ removeClientList 7 [7, 7] := by
  decide

/-- C10 witness: concrete instances of the amended theorem. -/
theorem remove_client_amended_witness :
    (7 : Nat) ∉ ([1, 2] : List Nat) ∧ removeClientList 7 [1, 2] = [1, 2] ∧
    removeClientList 3 (removeClientList 3 [1, 3]) = removeClientList 3 [1, 3] :=
  ⟨by decide, (remove_client_amended 7 [1, 2]).1 (by decide),
   (remove_client_amended 3 [1, 3]).2 (by decide)⟩
